import Mathlib

/-!
Verification of the libsafet value-storage kernel and lazy range pipeline
(src/safet/optional.hpp, src/safet/variant.hpp, src/safet/range.hpp) against
its specification.  The C++ templates are shallowly embedded as executable
Lean definitions; machine state that the source manipulates manually (the
engaged flag and buffer of an optional, iterator positions, value caches) is
passed explicitly.
-/

namespace safet

/-- Shallow embedding of safet::optional (src/safet/optional.hpp, value
case): a manually managed single-slot cell.  `engaged` mirrors the member
`m_engaged`; `slot` is the content of `m_buffer` (`some v` when a live `T`
object is present, `none` when the buffer holds no live object).  The class
invariant (spec section 3) is `engaged = true` exactly when the slot holds a
live object, but the embedding does not bake it in: the code can violate
it. -/
structure optional (α : Type) where
  engaged : Bool
  slot : Option α
deriving DecidableEq

/-- optional::empty() (line 382): `return !m_engaged;`. -/
def optional.empty (s : optional α) : Bool := !s.engaged

/-- optional::destroy() (lines 435-445): if engaged, run the held value's
destructor (after which the buffer holds no live object) and clear the
flag. -/
def optional.destroy (s : optional α) : optional α :=
  if s.engaged then { engaged := false, slot := none } else s

/-- optional::construct(args...) (lines 419-434), with the constructor call
`T(args...)` modelled by `ctor : Except epsilon alpha` (`Except.error e` is a
thrown exception `e`).  The source runs `if (m_engaged) destroy();`, then
sets `m_engaged = true;`, and only then placement-constructs into the
buffer; a throw therefore escapes after the flag is already true and before
any live object exists.  Returns the optional as the call leaves it,
together with the propagated exception if one was thrown. -/
def optional.construct (s : optional α) (ctor : Except ε α) : optional α × Option ε :=
  let s1 := if s.engaged then s.destroy else s
  let s2 : optional α := { engaged := true, slot := s1.slot }
  match ctor with
  | Except.ok v => ({ engaged := true, slot := some v }, none)
  | Except.error e => (s2, some e)

/-- optional::emplace(args...) (lines 354-358): forwards to construct. -/
def optional.emplace (s : optional α) (ctor : Except ε α) : optional α × Option ε :=
  s.construct ctor

/-- optional::if_set (lines 165-185, the overload whose functor returns
nothing): `if (m_engaged) f(value(), ...); return *this;`.  The functor
acts on an external state, and the returned Nat counts its invocations;
`value()` reads the buffer. -/
def optional.if_set_void [Inhabited α] (s : optional α) (f : α → σ → σ) (st : σ) :
    optional α × σ × Nat :=
  if s.engaged then (s, f (s.slot.getD default) st, 1) else (s, st, 0)

/-- optional::if_unset (lines 276-286, the overload whose functor returns
nothing): `if (!m_engaged) f(...); return *this;`, with an invocation
count. -/
def optional.if_unset_void (s : optional α) (g : σ → σ) (st : σ) :
    optional α × σ × Nat :=
  if !s.engaged then (s, g st, 1) else (s, st, 0)

/-- The chain `a.if_set(f).if_unset(g)`: the first call returns `*this`,
whose engagement the second call inspects.  Result: the resulting optional,
the final external state, and the invocation counts of `f` and of `g`. -/
def optional.if_set_then_unset [Inhabited α] (s : optional α) (f : α → σ → σ) (g : σ → σ)
    (st : σ) : optional α × σ × Nat × Nat :=
  let r1 := s.if_set_void f st
  let r2 := r1.1.if_unset_void g r1.2.1
  (r2.1, r2.2.1, r1.2.2, r2.2.2)

/-- Addresses-to-values memory for the reference case: optional stores
references as pointers, so observing whether an assignment mutates a
referent needs an explicit heap. -/
def Heap : Type := Nat → Int

/-- Shallow embedding of the reference instantiation optional of a
reference type (same class, `is_reference` branches): the buffer stores a
pointer (`storage_type = add_pointer_t<remove_reference_t<T>>`, line 390),
modelled as the referent's address. -/
structure optionalRef where
  engaged : Bool
  addr : Option Nat
deriving DecidableEq

/-- optional::destroy() for the reference case (lines 435-445): no
destructor is run on the referent; only the flag is cleared. -/
def optionalRef.destroy (s : optionalRef) : optionalRef :=
  if s.engaged then { engaged := false, addr := none } else s

/-- optional::construct for the reference case (lines 419-434): after the
destroy-if-engaged step the address of the one lvalue argument is stored
(`new (m_buffer) storage_type(std::addressof(args)...)`).  The call writes
only into the optional's own buffer, so the heap passes through
untouched. -/
def optionalRef.construct (s : optionalRef) (newAddr : Nat) (h : Heap) :
    optionalRef × Heap :=
  let s1 := s.destroy
  ({ engaged := true, addr := some newAddr }, h)

/-- optional::operator=(T new_value) (lines 124-129): for reference T the
parameter binds to the new referent and the body is
`construct(std::move(new_value))`, which rebinds the stored address; the
assignment is never forwarded through the previously held reference. -/
def optionalRef.assign (s : optionalRef) (newAddr : Nat) (h : Heap) :
    optionalRef × Heap :=
  s.construct newAddr h

/-- N+1-times-nested optional over a base type beta, by value semantics:
under the class invariant an optional's observable content is `Option` of
its value type.  `nestedOpt β 0` is one optional level, `nestedOpt β n` is
optional nested n+1 times. -/
def nestedOpt (β : Type) : Nat → Type
  | 0 => Option β
  | n + 1 => Option (nestedOpt β n)

/-- optional::collapse() (lines 370-380): when the value type is itself an
optional, an engaged outer level recurses into the held value
(`if_set(value.collapse()).value_or(nullopt)`) and a disengaged outer level
yields empty; when the value type is not an optional, collapse returns the
optional itself. -/
def collapse {β : Type} : (n : Nat) → nestedOpt β n → Option β
  | 0, o => o
  | n + 1, o =>
    match o with
    | some inner => collapse n inner
    | none => none

/-- Whether some nesting level of a nested optional is disengaged (spec:
"any disengaged level at any depth"). -/
def anyDisengaged {β : Type} : (n : Nat) → nestedOpt β n → Bool
  | 0, o => o.isNone
  | n + 1, o =>
    match o with
    | some inner => anyDisengaged n inner
    | none => true

/-- The n+1-times-nested optional that is engaged at every level and holds
`v` at the innermost level. -/
def nestAllEngaged {β : Type} (v : β) : (n : Nat) → nestedOpt β n
  | 0 => some v
  | n + 1 => some (nestAllEngaged v n)

/-- Shallow embedding of safet::variant with two distinct value
alternatives X and Y (src/safet/variant.hpp): the member `m_variant` is a
std::variant over the storage types, here a binary sum.  `Sum.inl` holds
alternative 0 (type X), `Sum.inr` alternative 1 (type Y). -/
abbrev variant2 (α β : Type) : Type := α ⊕ β

/-- variant::index() (lines 215-218): the active alternative's index. -/
def variant2.index {α β : Type} : variant2 α β → Nat
  | Sum.inl _ => 0
  | Sum.inr _ => 1

/-- variant::emplace of the first alternative (lines 109-113 via
std::variant::emplace): destroys the current alternative and constructs the
first one from the given value. -/
def variant2.emplaceFst {α β : Type} (s : variant2 α β) (v : α) : variant2 α β :=
  Sum.inl v

/-- variant::get of the first alternative type (lines 143-153): engaged
exactly when `holds_alternative` is true for that type, which for distinct
alternatives means the active index is 0. -/
def variant2.getFst {α β : Type} : variant2 α β → Option α
  | Sum.inl a => some a
  | Sum.inr _ => none

/-- variant::get of the second alternative type (lines 143-153). -/
def variant2.getSnd {α β : Type} : variant2 α β → Option β
  | Sum.inl _ => none
  | Sum.inr b => some b

/-- equality_helper (lines 349-357): covisit with an ==-overload for each
pair of equal alternative types and a false fallback for mixed pairs. -/
def equality_helper {α β : Type} (eqA : α → α → Bool) (eqB : β → β → Bool) :
    variant2 α β → variant2 α β → Bool
  | Sum.inl a, Sum.inl a2 => eqA a a2
  | Sum.inr b, Sum.inr b2 => eqB b b2
  | _, _ => false

/-- operator==(variant, variant) (lines 359-377): differing active indices
compare unequal immediately; otherwise the helper compares the active
values. -/
def variant2.eqOp {α β : Type} (eqA : α → α → Bool) (eqB : β → β → Bool)
    (l r : variant2 α β) : Bool :=
  if l.index ≠ r.index then false else equality_helper eqA eqB l r

/-- three_way_comparison_helper (lines 318-327): covisit with a
three-way-comparison overload for each pair of equal alternative types and
an index-comparison fallback for mixed pairs. -/
def three_way_comparison_helper {α β : Type} (cmpA : α → α → Ordering)
    (cmpB : β → β → Ordering) : variant2 α β → variant2 α β → Ordering
  | Sum.inl a, Sum.inl a2 => cmpA a a2
  | Sum.inr b, Sum.inr b2 => cmpB b b2
  | l, r => compare (variant2.index l) (variant2.index r)

/-- operator<=>(variant, variant) (lines 329-347): differing active indices
order by index; on index equality the helper delegates to the active
values' own three-way comparison. -/
def variant2.cmpOp {α β : Type} (cmpA : α → α → Ordering) (cmpB : β → β → Ordering)
    (l r : variant2 α β) : Ordering :=
  if l.index ≠ r.index then compare l.index r.index
  else three_way_comparison_helper cmpA cmpB l r

/-- A container iterator (e.g. std::vector of int): `rid` identifies the
underlying container — iterators into different containers compare unequal,
as their pointers do — and `idx` the element position.  `idx = length`
is the container's end position. -/
structure It where
  rid : Nat
  idx : Nat
deriving DecidableEq

/-- An environment giving each container id its contents. -/
def Env : Type := Nat → List Int

/-- Advancing an iterator (the ++ of the base iterator). -/
def It.next (i : It) : It := It.mk i.rid (i.idx + 1)

/-- Dereferencing a base iterator: the element at its position, or `none`
when the position is at or past the container's end — dereferencing there
is undefined behaviour in the source, which the embedding turns into an
observable failure. -/
def It.deref (env : Env) (i : It) : Option Int := (env i.rid)[i.idx]?

/-- Modelled from the spec: `optional::get_or_instantiate`, which
range_impl::iterator_value_cache (src/safet/range.hpp lines 18-63) calls on
its optional member, is absent from src/safet/optional.hpp.  Per the spec
(section 4.3: "if empty, computes f() and stores it", returning the stored
value) and matching the semantics of optional::emplace_if_empty in
src/safet/optional.hpp lines 360-368, it returns the held value without
invoking the functor when engaged, and otherwise stores and returns the
functor's result.  Result: value, new cache state, functor invocation
count. -/
def cache_get_or_instantiate {γ : Type} (c : Option γ) (f : Unit → γ) :
    γ × Option γ × Nat :=
  match c with
  | some v => (v, some v, 0)
  | none =>
    let v := f ()
    (v, some v, 1)

/-- iterator_value_cache::clear (src/safet/range.hpp lines 32-35, 56-59):
discard the cached value. -/
def cache_clear {γ : Type} (_c : Option γ) : Option γ := none

/-- safet::mapped_iterator (src/safet/range.hpp lines 139-203) over a base
container iterator: `m_base_iterator` plus the `m_mapped_value` cache (the
mapper is passed to each operation explicitly). -/
structure mapped_iterator where
  base : It
  cache : Option Int
deriving DecidableEq

/-- mapped_iterator::operator++ (lines 162-167): advance the base iterator
and clear the cache. -/
def mapped_iterator.inc (m : mapped_iterator) : mapped_iterator :=
  mapped_iterator.mk m.base.next (cache_clear m.cache)

/-- mapped_iterator::operator* (lines 184-191):
`m_mapped_value.get_or_instantiate(m_mapper(*m_base_iterator))`.  Returns
the produced value, the iterator after the call (its cache possibly newly
populated), and the number of mapper invocations; dereferencing the base
out of bounds is a failure. -/
def mapped_iterator.deref (env : Env) (f : Int → Int) (m : mapped_iterator) :
    Option Int × mapped_iterator × Nat :=
  match m.cache with
  | some v => (some v, m, 0)
  | none =>
    match It.deref env m.base with
    | some x =>
      let r := cache_get_or_instantiate m.cache (fun _ => f x)
      (some r.1, mapped_iterator.mk m.base r.2.1, r.2.2)
    | none => (none, m, 0)

/-- safet::filtered_iterator (src/safet/range.hpp lines 65-137) over a base
container iterator: `m_base_iterator`, `m_base_end_iterator`, and the
`m_last_value` cache, which stores the cached reference to the current
element (modelled by the referent's value).  The predicate is passed to
each operation explicitly. -/
structure filtered_iterator where
  base : It
  endIt : It
  cache : Option Int
deriving DecidableEq

/-- filtered_iterator::skip_invalid_items (lines 126-131): while the base
iterator is not at the end and the freshly cached current element fails the
predicate, advance the base iterator.  `fuel` bounds the loop — the source
loop terminates because the base reaches the end, and every use below
supplies fuel at least the container's length. -/
def skip_invalid_items (env : Env) (pred : Int → Bool) :
    Nat → filtered_iterator → filtered_iterator
  | 0, s => s
  | fuel + 1, s =>
    if s.base = s.endIt then s
    else
      match It.deref env s.base with
      | some v =>
        if pred v then filtered_iterator.mk s.base s.endIt (some v)
        else skip_invalid_items env pred fuel
          (filtered_iterator.mk s.base.next s.endIt (some v))
      | none => s

/-- filtered_iterator's constructor (lines 74-81): store the positions and
immediately skip items failing the predicate. -/
def filtered_iterator.make (env : Env) (pred : Int → Bool) (fuel : Nat)
    (pos endPos : It) : filtered_iterator :=
  skip_invalid_items env pred fuel (filtered_iterator.mk pos endPos none)

/-- filtered_iterator::operator++ (lines 89-94): advance the base iterator,
then skip items failing the predicate. -/
def filtered_iterator.inc (env : Env) (pred : Int → Bool) (fuel : Nat)
    (s : filtered_iterator) : filtered_iterator :=
  skip_invalid_items env pred fuel (filtered_iterator.mk s.base.next s.endIt s.cache)

/-- filtered_iterator::operator* (lines 111-119): the cached current
element via get_or_instantiate over the base dereference. -/
def filtered_iterator.deref (env : Env) (s : filtered_iterator) :
    Option Int × filtered_iterator :=
  match s.cache with
  | some v => (some v, s)
  | none =>
    match It.deref env s.base with
    | some v => (some v, filtered_iterator.mk s.base s.endIt (some v))
    | none => (none, s)

/-- filtered_iterator::operator== (lines 103-106): compares only the base
iterators. -/
def filtered_iterator.beq (a b : filtered_iterator) : Bool := a.base = b.base

/-- safet::mapped_iterator instantiated over a filtered_iterator base, as
`range::filter(...).map(...)` produces (src/safet/range.hpp lines
518-541). -/
structure mapped_filtered_iterator where
  base : filtered_iterator
  cache : Option Int
deriving DecidableEq

/-- mapped_iterator::operator++ for the filtered base: advance the filtered
iterator, clear the cache. -/
def mapped_filtered_iterator.inc (env : Env) (pred : Int → Bool) (fuel : Nat)
    (m : mapped_filtered_iterator) : mapped_filtered_iterator :=
  mapped_filtered_iterator.mk (m.base.inc env pred fuel) (cache_clear m.cache)

/-- mapped_iterator::operator* for the filtered base: cache the mapper
applied to the filtered iterator's current element. -/
def mapped_filtered_iterator.deref (env : Env) (f : Int → Int)
    (m : mapped_filtered_iterator) : Option Int × mapped_filtered_iterator :=
  match m.cache with
  | some v => (some v, m)
  | none =>
    match filtered_iterator.deref env m.base with
    | (some x, b2) => (some (f x), mapped_filtered_iterator.mk b2 (some (f x)))
    | (none, b2) => (none, mapped_filtered_iterator.mk b2 m.cache)

/-- range::collect (src/safet/range.hpp lines 543-563) over the
filter-then-map pipeline: materialize the sequence by iterating from begin
to end once (compare, dereference, increment), as the target container's
iterator-pair constructor does.  `none` when a dereference fails or fuel
runs out. -/
def collect_filter_map (env : Env) (pred : Int → Bool) (f : Int → Int) :
    Nat → mapped_filtered_iterator → mapped_filtered_iterator → Option (List Int)
  | 0, _, _ => none
  | fuel + 1, cur, stop =>
    if filtered_iterator.beq cur.base stop.base then some []
    else
      match mapped_filtered_iterator.deref env f cur with
      | (some v, cur2) =>
        (collect_filter_map env pred f fuel (cur2.inc env pred fuel) stop).map
          (fun rest => v :: rest)
      | (none, _) => none

/-- safet::joined_iterator, the specialisation for two ranges sharing one
position type (src/safet/range.hpp lines 306-387): one base position
`m_base_iterator`, the optional first-range-end marker `m_first_range_end`,
the second range's begin `m_second_range_begin`, and the `m_last_value`
cache. -/
structure joined_iterator where
  base : It
  firstEnd : Option It
  secondBegin : It
  cache : Option Int
deriving DecidableEq

/-- joined_iterator::reconcile (lines 371-380): clear the cache; then, if
the marker is set and the base position equals it, move the base to the
second range's begin and clear the marker (the single switch-over). -/
def joined_iterator.reconcile (j : joined_iterator) : joined_iterator :=
  let j2 := joined_iterator.mk j.base j.firstEnd j.secondBegin (cache_clear j.cache)
  match j2.firstEnd with
  | some fe =>
    if j2.base = fe then joined_iterator.mk j2.secondBegin none j2.secondBegin j2.cache
    else j2
  | none => j2

/-- joined_iterator::operator++ (lines 335-340): advance the base position,
then reconcile. -/
def joined_iterator.inc (j : joined_iterator) : joined_iterator :=
  (joined_iterator.mk j.base.next j.firstEnd j.secondBegin j.cache).reconcile

/-- joined_iterator::operator== (lines 349-352): compares only the base
positions. -/
def joined_iterator.beq (a b : joined_iterator) : Bool := a.base = b.base

/-- joined_iterator::operator* (lines 357-364): the cached current element
via get_or_instantiate over the base dereference. -/
def joined_iterator.deref (env : Env) (j : joined_iterator) :
    Option Int × joined_iterator :=
  match j.cache with
  | some v => (some v, j)
  | none =>
    match It.deref env j.base with
    | some v => (some v, joined_iterator.mk j.base j.firstEnd j.secondBegin (some v))
    | none => (none, j)

/-- Iterating a joined range from `cur` up to `stop` as a range-for loop
does: compare, dereference, increment.  `none` when a dereference goes out
of bounds (undefined behaviour in the source) or fuel runs out. -/
def joined_iterator.iterate (env : Env) :
    Nat → joined_iterator → joined_iterator → Option (List Int)
  | 0, _, _ => none
  | fuel + 1, cur, stop =>
    if joined_iterator.beq cur stop then some []
    else
      match joined_iterator.deref env cur with
      | (some v, cur2) =>
        (joined_iterator.iterate env fuel cur2.inc stop).map (fun rest => v :: rest)
      | (none, _) => none

/-- The begin iterator of `range(a).join(range(b))` (src/safet/range.hpp
lines 589-596): position a.begin, marker a.end, second begin b.begin.  The
constructor (lines 315-320) only stores its arguments — it performs no
reconcile. -/
def join_begin (aBegin aEnd bBegin : It) : joined_iterator :=
  joined_iterator.mk aBegin (some aEnd) bBegin none

/-- The end iterator of `range(a).join(range(b))` (lines 589-596): position
b.end with the same marker and second begin. -/
def join_end (aEnd bBegin bEnd : It) : joined_iterator :=
  joined_iterator.mk bEnd (some aEnd) bBegin none

/-- The containers of the C2 join scenario: container 0 is a = {1, 2},
container 1 is b = {3, 4}. -/
def env2 : Env := fun rid => if rid = 0 then [1, 2] else [3, 4]

/-- The containers of the C10 join scenario: container 0 is a = {} (empty),
container 1 is b = {3, 4}. -/
def env10 : Env := fun rid => if rid = 0 then [] else [3, 4]

/-- The container of the C8 pipeline scenario: container 0 is
{1, 2, 3, 4, 5}. -/
def env8 : Env := fun _ => [1, 2, 3, 4, 5]

end safet

/-- C1: the spec promises that an exception thrown by T's constructor during
construct/emplace propagates and leaves the optional un-engaged.  The code
sets `m_engaged = true` before the throwing placement-new, so at the failing
input (an empty optional whose constructor throws) the exception does
propagate but the optional is left with `empty() = false` while its slot
holds no live object. -/
theorem construct_throw_leaves_engaged :
    (safet.optional.construct (safet.optional.mk false none : safet.optional Int)
        (Except.error "boom")).2 = some "boom" ∧
    ((safet.optional.construct (safet.optional.mk false none : safet.optional Int)
        (Except.error "boom")).1).empty = false ∧
    ((safet.optional.construct (safet.optional.mk false none : safet.optional Int)
        (Except.error "boom")).1).slot = none :=
  ⟨rfl, rfl, rfl⟩

/-- C9: for every optional `a` and functors `f` (taking the held value) and
`g` (taking no arguments), `a.if_set(f).if_unset(g)` invokes exactly one of
`f` and `g`: `f` exactly when `a` is engaged and `g` exactly when `a` is
empty, never both. -/
theorem if_set_if_unset_exactly_one {α σ : Type} [Inhabited α] (s : safet.optional α)
    (f : α → σ → σ) (g : σ → σ) (st : σ) :
    (s.if_set_then_unset f g st).2.2.1 + (s.if_set_then_unset f g st).2.2.2 = 1 ∧
    (s.if_set_then_unset f g st).2.2.1 = (if s.engaged then 1 else 0) ∧
    (s.if_set_then_unset f g st).2.2.2 = (if s.empty then 1 else 0) := by
  cases s with
  | mk engaged slot =>
    cases engaged <;>
      simp [safet.optional.if_set_then_unset, safet.optional.if_set_void,
        safet.optional.if_unset_void, safet.optional.empty]

/-- C6: for every engaged reference-holding optional whose stored address is
`x`, assigning a new referent at address `y` rebinds the optional (the held
address becomes `y`) and leaves the heap, in particular the old referent's
value at `x`, unchanged. -/
theorem assign_rebinds_never_mutates (s : safet.optionalRef) (x y : Nat) (h : safet.Heap)
    (hEng : s.engaged = true) (hAddr : s.addr = some x) :
    (s.assign y h).1.addr = some y ∧ (s.assign y h).1.engaged = true ∧
    (s.assign y h).2 = h ∧ (s.assign y h).2 x = h x :=
  ⟨rfl, rfl, rfl, rfl⟩

/-- Witness for C6 at a concrete input: an optional bound to address 5,
rebound to address 7, over the heap that stores 0 everywhere. -/
theorem assign_rebinds_never_mutates_witness :
    ((safet.optionalRef.mk true (some 5)).assign 7 (fun _ => 0)).1.addr = some 7 ∧
    ((safet.optionalRef.mk true (some 5)).assign 7 (fun _ => 0)).1.engaged = true ∧
    ((safet.optionalRef.mk true (some 5)).assign 7 (fun _ => 0)).2 = (fun _ => 0) ∧
    ((safet.optionalRef.mk true (some 5)).assign 7 (fun _ => 0)).2 5 = (fun _ => (0 : Int)) 5 :=
  assign_rebinds_never_mutates (safet.optionalRef.mk true (some 5)) 5 7 (fun _ => 0) rfl rfl

/-- C7: collapse() on an n+1-times-nested optional (so for every N,
including N = 1, 2 and 9) returns the empty optional exactly when some
nesting level is disengaged, and otherwise the nested optional is engaged at
every level around an innermost value `v` and collapse returns `v`. -/
theorem collapse_flattens {β : Type} (n : Nat) (o : safet.nestedOpt β n) :
    (safet.collapse n o = none ↔ safet.anyDisengaged n o = true) ∧
    (safet.anyDisengaged n o = false →
      ∃ v : β, o = safet.nestAllEngaged v n ∧ safet.collapse n o = some v) := by
  induction n with
  | zero =>
    cases o with
    | none => simp [safet.collapse, safet.anyDisengaged, safet.nestAllEngaged]
    | some v => simp [safet.collapse, safet.anyDisengaged, safet.nestAllEngaged]
  | succ n ih =>
    cases o with
    | none => simp [safet.collapse, safet.anyDisengaged]
    | some inner =>
      constructor
      · simpa [safet.collapse, safet.anyDisengaged] using (ih inner).1
      · intro hAll
        have hAll2 : safet.anyDisengaged n inner = false := by
          simpa [safet.anyDisengaged] using hAll
        obtain ⟨v, hEq, hCol⟩ := (ih inner).2 hAll2
        exact ⟨v, by simp [safet.nestAllEngaged, hEq], by simpa [safet.collapse] using hCol⟩

/-- C4: for every Variant over two distinct alternatives, constructing the
first alternative via emplace makes get of the other alternative a
disengaged optional (no error or fault) and get of the constructed
alternative an engaged optional holding exactly the constructed value. -/
theorem emplace_then_get {α β : Type} (s : safet.variant2 α β) (v : α) :
    (s.emplaceFst v).getSnd = none ∧ (s.emplaceFst v).getFst = some v :=
  ⟨rfl, rfl⟩

/-- C5: variant equality holds exactly when the active indices agree and the
active values compare equal (spelled out on the four index patterns), and
ordering compares active indices first — mixed-index pairs order lt/gt by
index regardless of the values held — delegating to the active values' own
three-way comparison only on index equality. -/
theorem variant_eq_and_order (eqA : Int → Int → Bool) (eqB : Bool → Bool → Bool)
    (cmpA : Int → Int → Ordering) (cmpB : Bool → Bool → Ordering)
    (a a2 : Int) (b b2 : Bool) (l r : safet.variant2 Int Bool) :
    safet.variant2.eqOp eqA eqB (Sum.inl a) (Sum.inl a2) = eqA a a2 ∧
    safet.variant2.eqOp eqA eqB (Sum.inr b) (Sum.inr b2) = eqB b b2 ∧
    safet.variant2.eqOp eqA eqB (Sum.inl a) (Sum.inr b) = false ∧
    safet.variant2.eqOp eqA eqB (Sum.inr b) (Sum.inl a) = false ∧
    safet.variant2.cmpOp cmpA cmpB (Sum.inl a) (Sum.inl a2) = cmpA a a2 ∧
    safet.variant2.cmpOp cmpA cmpB (Sum.inr b) (Sum.inr b2) = cmpB b b2 ∧
    safet.variant2.cmpOp cmpA cmpB (Sum.inl a) (Sum.inr b) = Ordering.lt ∧
    safet.variant2.cmpOp cmpA cmpB (Sum.inr b) (Sum.inl a) = Ordering.gt ∧
    (safet.variant2.eqOp eqA eqB l r = true ↔
      (safet.variant2.index l = safet.variant2.index r ∧
        safet.equality_helper eqA eqB l r = true)) := by
  refine ⟨rfl, ?_, rfl, ?_, rfl, ?_, rfl, ?_, ?_⟩
  · simp [safet.variant2.eqOp, safet.variant2.index, safet.equality_helper]
  · simp [safet.variant2.eqOp, safet.variant2.index, safet.equality_helper]
  · simp [safet.variant2.cmpOp, safet.variant2.index, safet.three_way_comparison_helper]
  · simp [safet.variant2.cmpOp, safet.variant2.index, safet.three_way_comparison_helper]
    rfl
  · cases l <;> cases r <;>
      simp [safet.variant2.eqOp, safet.variant2.index, safet.equality_helper]

/-- C2: iterating `range(a).join(range(b))` over a = {1, 2} (container 0)
and b = {3, 4} (container 1) from begin to end yields {1, 2, 3, 4}; the
stored first-range-end marker survives the first increment, is cleared at
the exact increment whose position crosses a's end — where the base becomes
b's begin — and, once cleared, never triggers again (an increment of a
marker-free joined iterator keeps the marker clear and just advances). -/
theorem join_yields_and_switches_once :
    safet.joined_iterator.iterate safet.env2 10
      (safet.join_begin (safet.It.mk 0 0) (safet.It.mk 0 2) (safet.It.mk 1 0))
      (safet.join_end (safet.It.mk 0 2) (safet.It.mk 1 0) (safet.It.mk 1 2))
      = some [1, 2, 3, 4] ∧
    (safet.join_begin (safet.It.mk 0 0) (safet.It.mk 0 2) (safet.It.mk 1 0)).inc.firstEnd
      = some (safet.It.mk 0 2) ∧
    (safet.join_begin (safet.It.mk 0 0) (safet.It.mk 0 2) (safet.It.mk 1 0)).inc.inc
      = safet.joined_iterator.mk (safet.It.mk 1 0) none (safet.It.mk 1 0) none ∧
    (safet.join_begin (safet.It.mk 0 0) (safet.It.mk 0 2) (safet.It.mk 1 0)).inc.inc.inc.firstEnd
      = none ∧
    (∀ j : safet.joined_iterator, j.firstEnd = none →
      j.inc.firstEnd = none ∧ j.inc.base = j.base.next) := by
  refine ⟨by decide, by decide, by decide, by decide, ?_⟩
  intro j hj
  simp [safet.joined_iterator.inc, safet.joined_iterator.reconcile, hj, safet.cache_clear]

/-- C3: at a valid mapped-range position the transform runs exactly once
per position: the first dereference invokes the mapper once and caches the
result, a second dereference without incrementing invokes it zero times and
returns the cached value, and incrementing clears the cache so that the
next dereference recomputes exactly once. -/
theorem mapped_transform_once (env : safet.Env) (f : Int → Int) (i : safet.It) (x y : Int)
    (hx : safet.It.deref env i = some x) (hy : safet.It.deref env i.next = some y) :
    safet.mapped_iterator.deref env f (safet.mapped_iterator.mk i none)
      = (some (f x), safet.mapped_iterator.mk i (some (f x)), 1) ∧
    safet.mapped_iterator.deref env f (safet.mapped_iterator.mk i (some (f x)))
      = (some (f x), safet.mapped_iterator.mk i (some (f x)), 0) ∧
    (safet.mapped_iterator.mk i (some (f x))).inc = safet.mapped_iterator.mk i.next none ∧
    safet.mapped_iterator.deref env f (safet.mapped_iterator.mk i.next none)
      = (some (f y), safet.mapped_iterator.mk i.next (some (f y)), 1) := by
  refine ⟨?_, rfl, rfl, ?_⟩
  · simp [safet.mapped_iterator.deref, hx, safet.cache_get_or_instantiate]
  · simp [safet.mapped_iterator.deref, hy, safet.cache_get_or_instantiate]

/-- Witness for C3 at a concrete input: the container {1, 2} at position 0
with the squaring transform. -/
theorem mapped_transform_once_witness :
    safet.mapped_iterator.deref (fun _ => [1, 2]) (fun v => v * v)
        (safet.mapped_iterator.mk (safet.It.mk 0 0) none)
      = (some 1, safet.mapped_iterator.mk (safet.It.mk 0 0) (some 1), 1) ∧
    safet.mapped_iterator.deref (fun _ => [1, 2]) (fun v => v * v)
        (safet.mapped_iterator.mk (safet.It.mk 0 0) (some 1))
      = (some 1, safet.mapped_iterator.mk (safet.It.mk 0 0) (some 1), 0) ∧
    (safet.mapped_iterator.mk (safet.It.mk 0 0) (some 1)).inc
      = safet.mapped_iterator.mk (safet.It.mk 0 0).next none ∧
    safet.mapped_iterator.deref (fun _ => [1, 2]) (fun v => v * v)
        (safet.mapped_iterator.mk (safet.It.mk 0 0).next none)
      = (some 4, safet.mapped_iterator.mk (safet.It.mk 0 0).next (some 4), 1) :=
  mapped_transform_once (fun _ => [1, 2]) (fun v => v * v) (safet.It.mk 0 0) 1 2 rfl rfl

/-- C8: the pipeline `range(container).filter(pred).map(f).collect()` over
container {1, 2, 3, 4, 5} with predicate x > 2 and transform x * x, built
exactly as range::filter, range::map and range::collect build it (filtered
begin/end run the constructor's skip, the mapped iterators wrap them with
empty caches, collect iterates begin to end once), yields {9, 16, 25}. -/
theorem pipeline_filter_map_collect :
    safet.collect_filter_map safet.env8 (fun x => decide (2 < x)) (fun x => x * x) 10
      (safet.mapped_filtered_iterator.mk
        (safet.filtered_iterator.make safet.env8 (fun x => decide (2 < x)) 10
          (safet.It.mk 0 0) (safet.It.mk 0 5)) none)
      (safet.mapped_filtered_iterator.mk
        (safet.filtered_iterator.make safet.env8 (fun x => decide (2 < x)) 10
          (safet.It.mk 0 5) (safet.It.mk 0 5)) none)
      = some [9, 16, 25] := by
  decide

/-- C10: with a = {} (container 0, empty) and b = {3, 4} (container 1),
the claim says iterating `range(a).join(range(b))` yields b's elements.
The joined begin iterator the code constructs still sits at a's end
position with the marker set (the constructor never reconciles), compares
unequal to the end iterator, and its first dereference reads a's end
position — out of bounds — so the iteration fails instead of yielding
{3, 4}. -/
theorem join_empty_first_range_fails :
    (safet.join_begin (safet.It.mk 0 0) (safet.It.mk 0 0) (safet.It.mk 1 0)).base
      = safet.It.mk 0 0 ∧
    (safet.join_begin (safet.It.mk 0 0) (safet.It.mk 0 0) (safet.It.mk 1 0)).firstEnd
      = some (safet.It.mk 0 0) ∧
    safet.joined_iterator.beq
      (safet.join_begin (safet.It.mk 0 0) (safet.It.mk 0 0) (safet.It.mk 1 0))
      (safet.join_end (safet.It.mk 0 0) (safet.It.mk 1 0) (safet.It.mk 1 2)) = false ∧
    (safet.joined_iterator.deref safet.env10
      (safet.join_begin (safet.It.mk 0 0) (safet.It.mk 0 0) (safet.It.mk 1 0))).1 = none ∧
    safet.joined_iterator.iterate safet.env10 10
      (safet.join_begin (safet.It.mk 0 0) (safet.It.mk 0 0) (safet.It.mk 1 0))
      (safet.join_end (safet.It.mk 0 0) (safet.It.mk 1 0) (safet.It.mk 1 2)) = none := by
  decide
